import Mathlib

/- Verification development for `src/scripts/onemap_building_download.py`
   (class `OnemapDownloader`).

   Modelling choices.  The transport (the aiohttp session) is modelled as
   two oracles per postal code: the outcome of attempt `a` of the initial
   search request issued by `fetch_postal`, and the outcome of the single
   request issued for page `p` by the page loop of `process_postal`.  An
   exception escaping a coroutine is modelled with `Except`: `.error` is a
   raised exception propagating to `asyncio.gather` and hence out of
   `download_data`.  Error-log writes are modelled as pure accumulation of
   `ErrorEntry` values, i.e. the run is considered over a filesystem whose
   appends succeed; `log_error` itself is modelled separately with an
   explicit fallible filesystem.  Entries already written before an
   escaping exception are not tracked (every claim about entries concerns
   completed runs).  Concurrency does not affect which records a key
   contributes, so the record/error dataflow of `download_data` is
   embedded sequentially; the scheduling of the semaphore and of
   `asyncio.gather` is modelled separately as an event trace. -/

/-- One raw item of a decoded search response; each field is possibly
absent (`item.get(..., '')` supplies a default on read). -/
structure RawItem where
  BLK_NO : Option String
  ROAD_NAME : Option String
  POSTAL : Option String
  BUILDING : Option String
  LATITUDE : Option String
  LONGITUDE : Option String
deriving DecidableEq

/-- Decoded JSON payload of one search response.  The code reads `found`
via `result.get('found', 0)` (default 0 when absent), `totalNumPages` via
`result['totalNumPages']` (raises `KeyError` when absent), and `results`
via `data.get('results', [])` (default empty). -/
structure SearchResponse where
  found : Option Int
  totalNumPages : Option Int
  results : Option (List RawItem)

/-- Outcome of one HTTP GET issued through the session: the request times
out (`asyncio.TimeoutError`, from the request or from reading the body),
raises some other exception, or yields a response with a status code and
a JSON body whose decoding either succeeds or raises (`.error` models a
non-timeout exception from `response.json()`). -/
inductive HttpOutcome where
  | timeout : HttpOutcome
  | getError : String → HttpOutcome
  | response : Nat → Except String SearchResponse → HttpOutcome

/-- Transport behaviour for one postal code: `initial a` is the outcome of
attempt `a` (0-based) of the initial probe of `fetch_postal`; `page p` is
the outcome of the one request the page loop issues for page `p`. -/
structure Transport where
  initial : Nat → HttpOutcome
  page : Nat → HttpOutcome

/-- Transport behaviour of the whole run, per postal code. -/
def TransportEnv : Type := String → Transport

/-- One line of the error log, as written by `log_error(postal_code, error)`. -/
structure ErrorEntry where
  postal_code : String
  reason : String
deriving DecidableEq

/-- One output row, with the column names of the code (line 42:
`pd.DataFrame(columns=['blk_no', 'street', 'postal_code', 'name', 'lat', 'lon'])`). -/
structure BuildingRecord where
  blk_no : String
  street : String
  postal_code : String
  name : String
  lat : String
  lon : String
deriving DecidableEq

/-- Field-wise mapping of one raw item to an output row, from the dict
literal in `process_postal` (lines 85-92): every raw field is read with
`item.get(FIELD, '')`, so an absent field becomes the empty string. -/
def mkRecord (item : RawItem) : BuildingRecord :=
  { blk_no := item.BLK_NO.getD ""
    street := item.ROAD_NAME.getD ""
    postal_code := item.POSTAL.getD ""
    name := item.BUILDING.getD ""
    lat := item.LATITUDE.getD ""
    lon := item.LONGITUDE.getD "" }

/-- Result of `fetch_postal`: the value returned (`some` parsed body or
`none`), the error-log entries written, and the number of request
attempts issued. -/
structure FetchResult where
  result : Option SearchResponse
  errors : List ErrorEntry
  attempts : Nat

/-- Retry loop of `fetch_postal` (lines 52-71), unrolled on the number of
loop iterations still available; the 0-based `attempt` index of the
current iteration is `retries - remaining`.  A 200 response returns its
parsed body (a body whose parsing raises is caught by `except Exception`:
log and break); a non-200 status logs `HTTP <status>` and breaks; a
timeout retries while `attempt < retries - 1` and otherwise logs
`Timeout after retries`; any other exception logs its text and breaks. -/
def fetchAux (pc : String) (start : Nat → HttpOutcome) (retries : Nat) : Nat → FetchResult
  | 0 => { result := none, errors := [], attempts := 0 }
  | remaining + 1 =>
    let attempt := retries - (remaining + 1)
    match start attempt with
    | .timeout =>
      if attempt < retries - 1 then
        let rest := fetchAux pc start retries remaining
        { rest with attempts := rest.attempts + 1 }
      else
        { result := none, errors := [⟨pc, "Timeout after retries"⟩], attempts := 1 }
    | .getError msg => { result := none, errors := [⟨pc, msg⟩], attempts := 1 }
    | .response status payload =>
      if status = 200 then
        match payload with
        | .ok body => { result := some body, errors := [], attempts := 1 }
        | .error msg => { result := none, errors := [⟨pc, msg⟩], attempts := 1 }
      else
        { result := none, errors := [⟨pc, "HTTP " ++ toString status⟩], attempts := 1 }

/-- Embedding of `fetch_postal(session, postal_code, retries)`; the code
always calls it with the default `retries=3`. -/
def fetch_postal (pc : String) (start : Nat → HttpOutcome) (retries : Nat) : FetchResult :=
  fetchAux pc start retries retries

/-- Page loop of `process_postal` (lines 78-94) over a list of page
numbers.  Only `asyncio.TimeoutError` is caught (logging
`Page <page> timeout` and moving on); a 200 response appends the mapped
items of its `results`; a non-200 response is skipped silently; any other
exception from the request or from `response.json()` propagates. -/
def fetchPages (pc : String) (t : Transport) : List Nat → Except String (List BuildingRecord × List ErrorEntry)
  | [] => .ok ([], [])
  | p :: ps =>
    match t.page p with
    | .timeout =>
      match fetchPages pc t ps with
      | .error e => .error e
      | .ok (rs, es) => .ok (rs, ⟨pc, "Page " ++ toString p ++ " timeout"⟩ :: es)
    | .getError msg => .error msg
    | .response status payload =>
      if status = 200 then
        match payload with
        | .error msg => .error msg
        | .ok data =>
          match fetchPages pc t ps with
          | .error e => .error e
          | .ok (rs, es) => .ok ((data.results.getD []).map mkRecord ++ rs, es)
      else fetchPages pc t ps

/-- Page numbers visited by `for page in range(1, result['totalNumPages'] + 1)`. -/
def pageList (tnp : Int) : List Nat :=
  List.range' 1 tnp.toNat

/-- What one completed `process_postal` task delivers: its returned record
list and the error-log entries written on its behalf. -/
structure ProcResult where
  records : List BuildingRecord
  errors : List ErrorEntry

/-- Embedding of `process_postal(postal_code, session)` (lines 73-95):
run `fetch_postal`; if it returned a body with `found > 0`, read
`totalNumPages` (raising `KeyError` when absent) and run the page loop;
otherwise return no records. -/
def process_postal (pc : String) (t : Transport) : Except String ProcResult :=
  let fr := fetch_postal pc t.initial 3
  match fr.result with
  | some body =>
    if 0 < body.found.getD 0 then
      match body.totalNumPages with
      | none => .error "KeyError: totalNumPages"
      | some tnp =>
        match fetchPages pc t (pageList tnp) with
        | .error e => .error e
        | .ok (rs, es) => .ok { records := rs, errors := fr.errors ++ es }
    else .ok { records := [], errors := fr.errors }
  | none => .ok { records := [], errors := fr.errors }

/-- Zero-padded 6-digit decimal rendering: models Python `f"{i:06d}"` for
`i < 1000000`, which covers every index the generator produces. -/
def pad6 (i : Nat) : String :=
  String.mk [Nat.digitChar (i / 100000 % 10), Nat.digitChar (i / 10000 % 10),
    Nat.digitChar (i / 1000 % 10), Nat.digitChar (i / 100 % 10),
    Nat.digitChar (i / 10 % 10), Nat.digitChar (i % 10)]

/-- Key space of the run (line 101):
`postal_codes = [f"{i:06d}" for i in range(10000, 830000)]`. -/
def postal_codes : List String :=
  (List.range' 10000 820000).map pad6

/-- Accumulator state of the loop in `download_data`: the coroutines
appended since the last flush, the growing dataframe, and the error log. -/
structure DLState where
  pending : List String
  df : List BuildingRecord
  errs : List ErrorEntry

/-- Embedding of `asyncio.gather(*tasks)` followed by the
`for batch in completed: ... pd.concat` loop: run every pending task,
propagating the first raised exception, and concatenate the record
batches in submission order (`if batch:` only skips empty lists, which
concatenation ignores). -/
def gatherTasks (env : TransportEnv) : List String → Except String ProcResult
  | [] => .ok { records := [], errors := [] }
  | k :: ks =>
    match process_postal k (env k) with
    | .error e => .error e
    | .ok r =>
      match gatherTasks env ks with
      | .error e => .error e
      | .ok rest => .ok { records := r.records ++ rest.records, errors := r.errors ++ rest.errors }

/-- Main loop of `download_data` (lines 106-119): at index `i` the task
for the current key is appended, then `if i % 1000 == 0 and i > 0` the
pending batch is gathered, its records concatenated onto the dataframe,
and `tasks.clear()` empties the pending list. -/
def downloadAux (env : TransportEnv) : Nat → List String → DLState → Except String DLState
  | _, [], st => .ok st
  | i, k :: ks, st =>
    let pending := st.pending ++ [k]
    if i % 1000 = 0 ∧ 0 < i then
      match gatherTasks env pending with
      | .error e => .error e
      | .ok r =>
        downloadAux env (i + 1) ks { pending := [], df := st.df ++ r.records, errs := st.errs ++ r.errors }
    else downloadAux env (i + 1) ks { pending := pending, df := st.df, errs := st.errs }

/-- Embedding of `download_data` (lines 98-129) over an explicit key list
(the code fixes `keys = postal_codes`): run the main loop from index 0
with an empty state, then `if tasks:` gather the remaining pending batch;
the returned pair is the final dataframe and the error log. -/
def download_data (env : TransportEnv) (keys : List String) : Except String (List BuildingRecord × List ErrorEntry) :=
  match downloadAux env 0 keys { pending := [], df := [], errs := [] } with
  | .error e => .error e
  | .ok st =>
    if st.pending.isEmpty then .ok (st.df, st.errs)
    else
      match gatherTasks env st.pending with
      | .error e => .error e
      | .ok r => .ok (st.df ++ r.records, st.errs ++ r.errors)

/-- Records contributed by one key, computed independently of the run:
what its `process_postal` task returns (empty when the task raises). -/
def perKeyRecs (env : TransportEnv) (k : String) : List BuildingRecord :=
  match process_postal k (env k) with
  | .ok r => r.records
  | .error _ => []

/-- Error-log entries contributed by one completed key. -/
def perKeyErrs (env : TransportEnv) (k : String) : List ErrorEntry :=
  match process_postal k (env k) with
  | .ok r => r.errors
  | .error _ => []

/-- The `process_postal` task of key `k` completes without raising. -/
def KeyOk (env : TransportEnv) (k : String) : Prop :=
  ∃ r, process_postal k (env k) = Except.ok r

/-- Embedding of `log_error` (lines 47-50): append one formatted line to
the error-log file.  `fsAppend` models the filesystem append performed by
`open(...)` / `f.write(...)`; the code wraps it in no exception handler,
so a failing append propagates to the caller. -/
def log_error (fsAppend : String → Except String Unit) (pc err : String) : Except String Unit :=
  fsAppend ("Error with postal code " ++ pc ++ ": " ++ err ++ "\n")

/-- An attempt whose outcome is not a timeout resolves the fetch loop at
once: one request is issued and the loop ends with either a parsed body
and no entry, or no body and exactly one entry. -/
theorem fetchAux_resolve (pc : String) (start : Nat → HttpOutcome) (retries rem : Nat)
    (h : start (retries - (rem + 1)) ≠ HttpOutcome.timeout) :
    (fetchAux pc start retries (rem + 1)).attempts = 1 ∧
    (((fetchAux pc start retries (rem + 1)).result.isSome = true ∧
        (fetchAux pc start retries (rem + 1)).errors = []) ∨
      ((fetchAux pc start retries (rem + 1)).result = none ∧
        (fetchAux pc start retries (rem + 1)).errors.length = 1)) := by
  cases ho : start (retries - (rem + 1)) with
  | timeout => exact absurd ho h
  | getError m => simp [fetchAux, ho]
  | response s p =>
    by_cases hs : s = 200
    · cases p with
      | ok b => simp [fetchAux, ho, hs]
      | error m => simp [fetchAux, ho, hs]
    · simp [fetchAux, ho, hs]

/-- C3: with the retry budget 3 used by the code, `fetch_postal` issues
between 1 and 3 attempts; every attempt before the last one issued timed
out (so a non-timeout outcome resolves the key immediately and is never
re-attempted); three timeouts fail the key permanently with reason
"Timeout after retries"; and the key reaches exactly one terminal
outcome: a parsed body with no error entry, or no body with exactly one
error entry. -/
theorem fetch_retry_contract (pc : String) (start : Nat → HttpOutcome) :
    1 ≤ (fetch_postal pc start 3).attempts ∧
    (fetch_postal pc start 3).attempts ≤ 3 ∧
    ((start 0 = HttpOutcome.timeout ∧ start 1 = HttpOutcome.timeout ∧
        start 2 = HttpOutcome.timeout) →
      (fetch_postal pc start 3).result = none ∧
      (fetch_postal pc start 3).errors = [⟨pc, "Timeout after retries"⟩]) ∧
    (∀ j, j + 1 < (fetch_postal pc start 3).attempts → start j = HttpOutcome.timeout) ∧
    (((fetch_postal pc start 3).result.isSome = true ∧
        (fetch_postal pc start 3).errors = []) ∨
      ((fetch_postal pc start 3).result = none ∧
        (fetch_postal pc start 3).errors.length = 1)) := by
  simp only [fetch_postal]
  by_cases h0 : start 0 = HttpOutcome.timeout
  · have step1 : fetchAux pc start 3 3 =
        { result := (fetchAux pc start 3 2).result, errors := (fetchAux pc start 3 2).errors,
          attempts := (fetchAux pc start 3 2).attempts + 1 } := by
      simp [fetchAux, h0]
    by_cases h1 : start 1 = HttpOutcome.timeout
    · have step2 : fetchAux pc start 3 2 =
          { result := (fetchAux pc start 3 1).result, errors := (fetchAux pc start 3 1).errors,
            attempts := (fetchAux pc start 3 1).attempts + 1 } := by
        simp [fetchAux, h1]
      by_cases h2 : start 2 = HttpOutcome.timeout
      · have step3 : fetchAux pc start 3 1 =
            { result := none, errors := [⟨pc, "Timeout after retries"⟩], attempts := 1 } := by
          simp [fetchAux, h2]
        rw [step1, step2, step3]
        refine ⟨by simp, by simp, fun _ => ⟨by simp, by simp⟩, ?_, by simp⟩
        intro j hj
        simp at hj
        have hj' : j = 0 ∨ j = 1 := by omega
        rcases hj' with rfl | rfl
        · exact h0
        · exact h1
      · have h2' : start (3 - (0 + 1)) ≠ HttpOutcome.timeout := by simpa using h2
        obtain ⟨ha, hd⟩ := fetchAux_resolve pc start 3 0 h2'
        norm_num at ha hd
        rw [step1, step2]
        refine ⟨by simp, by simp [ha], ?_, ?_, by simpa using hd⟩
        · rintro ⟨-, -, hc⟩
          exact absurd hc h2
        · intro j hj
          simp only [ha] at hj
          have hj' : j = 0 ∨ j = 1 := by omega
          rcases hj' with rfl | rfl
          · exact h0
          · exact h1
    · have h1' : start (3 - (1 + 1)) ≠ HttpOutcome.timeout := by simpa using h1
      obtain ⟨ha, hd⟩ := fetchAux_resolve pc start 3 1 h1'
      norm_num at ha hd
      rw [step1]
      refine ⟨by simp, by simp [ha], ?_, ?_, by simpa using hd⟩
      · rintro ⟨-, hb, -⟩
        exact absurd hb h1
      · intro j hj
        simp only [ha] at hj
        have hj' : j = 0 := by omega
        subst hj'
        exact h0
  · have h0' : start (3 - (2 + 1)) ≠ HttpOutcome.timeout := by simpa using h0
    obtain ⟨ha, hd⟩ := fetchAux_resolve pc start 3 2 h0'
    norm_num at ha hd
    refine ⟨by simp [ha], by simp [ha], ?_, ?_, hd⟩
    · rintro ⟨hb, -, -⟩
      exact absurd hb h0
    · intro j hj
      simp only [ha] at hj
      omega

/-- C3 witness: all three attempts time out for a concrete key, yielding
the permanent failure "Timeout after retries". -/
theorem fetch_retry_contract_witness :
    (fetch_postal "018956" (fun _ => HttpOutcome.timeout) 3).result = none ∧
    (fetch_postal "018956" (fun _ => HttpOutcome.timeout) 3).errors =
      [⟨"018956", "Timeout after retries"⟩] :=
  (fetch_retry_contract "018956" (fun _ => HttpOutcome.timeout)).2.2.1 ⟨rfl, rfl, rfl⟩

/-- Outcome test for the one caught exception of the page loop. -/
def isTimeout : HttpOutcome → Bool
  | .timeout => true
  | _ => false

/-- A page outcome the page loop survives: a timeout (caught and logged),
a non-200 response (skipped), or a 200 response whose body parses.  The
remaining outcomes — an exception from the request or from
`response.json()` — are the ones `except asyncio.TimeoutError` does not
catch. -/
def pageSafe : HttpOutcome → Bool
  | .timeout => false || true
  | .getError _ => false
  | .response status payload => status != 200 || payload.isOk

/-- Records page `p` contributes to the key's result set: the mapped
`results` of a 200 response, nothing otherwise. -/
def pageRecs (t : Transport) (p : Nat) : List BuildingRecord :=
  match t.page p with
  | .response status payload =>
    if status = 200 then
      match payload with
      | .ok data => (data.results.getD []).map mkRecord
      | .error _ => []
    else []
  | _ => []

/-- The page loop is timeout-tolerant: over pages whose outcomes it
survives, it completes with the concatenated per-page records and one
timeout entry per timed-out page, in page order. -/
theorem fetchPages_safe (pc : String) (t : Transport) (ps : List Nat)
    (h : ∀ p ∈ ps, pageSafe (t.page p) = true) :
    fetchPages pc t ps =
      Except.ok (ps.flatMap (pageRecs t),
        (ps.filter (fun p => isTimeout (t.page p))).map
          (fun p => ⟨pc, "Page " ++ toString p ++ " timeout"⟩)) := by
  induction ps with
  | nil => simp [fetchPages]
  | cons p ps ih =>
    have hp := h p (by simp)
    have hps : ∀ q ∈ ps, pageSafe (t.page q) = true := fun q hq => h q (by simp [hq])
    cases hpo : t.page p with
    | timeout =>
      simp [fetchPages, hpo, ih hps, pageRecs, isTimeout]
    | getError m =>
      rw [hpo] at hp
      simp [pageSafe] at hp
    | response s payload =>
      by_cases hs : s = 200
      · subst hs
        rw [hpo] at hp
        cases payload with
        | ok data =>
          simp [fetchPages, hpo, ih hps, pageRecs, isTimeout]
        | error m =>
          simp [pageSafe, Except.isOk, Except.toBool] at hp
      · simp [fetchPages, hpo, hs, ih hps, pageRecs, isTimeout]

/-- Evaluation of `fetch_postal` when the very first attempt yields a
parsed 200 response: the body is returned with no entry logged. -/
theorem fetch_first_ok (pc : String) (start : Nat → HttpOutcome) (body : SearchResponse)
    (hinit : start 0 = HttpOutcome.response 200 (Except.ok body)) :
    fetch_postal pc start 3 = { result := some body, errors := [], attempts := 1 } := by
  simp [fetch_postal, fetchAux, hinit]

/-- C5: when the initial probe parses with a positive found-count and
every page outcome is one the loop survives, a timeout on an individual
page `p0` leaves the key with a completed (non-raised, non-failed)
outcome: the result set still holds every other page's records, the
error log gains an entry whose reason names page `p0`, and the only
entries written for the key are page-timeout entries, not a key-level
failure. -/
theorem page_timeout_tolerated (pc : String) (t : Transport) (body : SearchResponse)
    (tnp : Int) (p0 : Nat)
    (hinit : t.initial 0 = HttpOutcome.response 200 (Except.ok body))
    (hfound : 0 < body.found.getD 0)
    (htnp : body.totalNumPages = some tnp)
    (hsafe : ∀ p ∈ pageList tnp, pageSafe (t.page p) = true)
    (hp0 : p0 ∈ pageList tnp)
    (ht : t.page p0 = HttpOutcome.timeout) :
    process_postal pc t =
      Except.ok { records := (pageList tnp).flatMap (pageRecs t),
                  errors := ((pageList tnp).filter (fun p => isTimeout (t.page p))).map
                    (fun p => ⟨pc, "Page " ++ toString p ++ " timeout"⟩) } ∧
    (⟨pc, "Page " ++ toString p0 ++ " timeout"⟩ : ErrorEntry) ∈
      ((pageList tnp).filter (fun p => isTimeout (t.page p))).map
        (fun p => (⟨pc, "Page " ++ toString p ++ " timeout"⟩ : ErrorEntry)) := by
  constructor
  · simp [process_postal, fetch_first_ok pc t.initial body hinit, hfound, htnp,
      fetchPages_safe pc t (pageList tnp) hsafe]
  · exact List.mem_map_of_mem _ (List.mem_filter.mpr ⟨hp0, by simp [ht, isTimeout]⟩)

/-- Concrete transport for the spec scenario of C5: three pages, page 2
times out, pages 1 and 3 return one item each. -/
def itemA : RawItem :=
  ⟨some "10", some "DOVER RD", some "138680", some "DOVER COURT", some "1.30", some "103.78"⟩

def scenarioPageTimeout : Transport :=
  { initial := fun _ => HttpOutcome.response 200 (Except.ok ⟨some 5, some 3, some []⟩)
    page := fun p =>
      if p = 2 then HttpOutcome.timeout
      else HttpOutcome.response 200 (Except.ok ⟨some 5, some 3, some [itemA]⟩) }

/-- C5 witness: page 2 of 3 times out; the key completes with the records
of pages 1 and 3 and a page-2 entry. -/
theorem page_timeout_tolerated_witness :
    process_postal "138680" scenarioPageTimeout =
      Except.ok { records := [mkRecord itemA, mkRecord itemA],
                  errors := [⟨"138680", "Page 2 timeout"⟩] } := by
  have h := page_timeout_tolerated "138680" scenarioPageTimeout ⟨some 5, some 3, some []⟩ 3 2
    rfl (by decide) rfl (by decide) (by decide) rfl
  rw [h.1]
  rfl

/-- C8: a key whose initial probe parses with a found-count of zero (or
negative, or absent — `get('found', 0)` defaults to 0) completes
successfully with an empty record set and writes no error entry. -/
theorem found_zero_success (pc : String) (t : Transport) (body : SearchResponse)
    (hinit : t.initial 0 = HttpOutcome.response 200 (Except.ok body))
    (hfound : body.found.getD 0 ≤ 0) :
    process_postal pc t = Except.ok { records := [], errors := [] } := by
  have hnot : ¬ (0 : Int) < body.found.getD 0 := by omega
  simp [process_postal, fetch_first_ok pc t.initial body hinit, hnot]

/-- C8 witness: the spec scenario — key "999999" with a transport
returning found = 0 yields zero records and no entry. -/
theorem found_zero_success_witness :
    process_postal "999999"
      { initial := fun _ => HttpOutcome.response 200 (Except.ok ⟨some 0, some 1, some [itemA]⟩)
        page := fun _ => HttpOutcome.timeout } =
      Except.ok { records := [], errors := [] } :=
  found_zero_success "999999" _ ⟨some 0, some 1, some [itemA]⟩ rfl (by decide)

/-- C10 (implicit): during page aggregation, a page answered with a
non-200 status is silently skipped — the key still completes, that page
contributes no records, and no error entry is logged for it (its page
number is not among the logged timeout pages), in contrast with a page
timeout, which is logged. -/
theorem page_non200_skipped (pc : String) (t : Transport) (body : SearchResponse)
    (tnp : Int) (p0 : Nat) (s : Nat) (payload : Except String SearchResponse)
    (hinit : t.initial 0 = HttpOutcome.response 200 (Except.ok body))
    (hfound : 0 < body.found.getD 0)
    (htnp : body.totalNumPages = some tnp)
    (hsafe : ∀ p ∈ pageList tnp, pageSafe (t.page p) = true)
    (hp0 : t.page p0 = HttpOutcome.response s payload)
    (hs : s ≠ 200) :
    process_postal pc t =
      Except.ok { records := (pageList tnp).flatMap (pageRecs t),
                  errors := ((pageList tnp).filter (fun p => isTimeout (t.page p))).map
                    (fun p => ⟨pc, "Page " ++ toString p ++ " timeout"⟩) } ∧
    pageRecs t p0 = [] ∧
    p0 ∉ (pageList tnp).filter (fun p => isTimeout (t.page p)) := by
  refine ⟨?_, ?_, ?_⟩
  · simp [process_postal, fetch_first_ok pc t.initial body hinit, hfound, htnp,
      fetchPages_safe pc t (pageList tnp) hsafe]
  · simp [pageRecs, hp0, hs]
  · intro hmem
    have := (List.mem_filter.mp hmem).2
    rw [hp0] at this
    simp [isTimeout] at this

/-- Concrete transport for C10: two pages, page 2 answers HTTP 404,
page 1 returns one item. -/
def scenarioPage404 : Transport :=
  { initial := fun _ => HttpOutcome.response 200 (Except.ok ⟨some 3, some 2, some []⟩)
    page := fun p =>
      if p = 2 then HttpOutcome.response 404 (Except.error "not json")
      else HttpOutcome.response 200 (Except.ok ⟨some 3, some 2, some [itemA]⟩) }

/-- C10 witness: the 404 on page 2 is skipped silently; the key completes
with page 1's record and an empty error log. -/
theorem page_non200_skipped_witness :
    process_postal "520147" scenarioPage404 =
      Except.ok { records := [mkRecord itemA], errors := [] } := by
  have h := page_non200_skipped "520147" scenarioPage404 ⟨some 3, some 2, some []⟩ 2 2 404
    (Except.error "not json") rfl (by decide) rfl (by decide) rfl (by decide)
  rw [h.1]
  rfl

/-- Forward evaluation of a gather batch in which every task completes:
the batch's records and entries are the per-key contributions
concatenated in submission order. -/
theorem gatherTasks_ok (env : TransportEnv) (p : List String) (h : ∀ k ∈ p, KeyOk env k) :
    gatherTasks env p =
      Except.ok { records := p.flatMap (perKeyRecs env), errors := p.flatMap (perKeyErrs env) } := by
  induction p with
  | nil => simp [gatherTasks]
  | cons k ks ih =>
    obtain ⟨r, hr⟩ := h k (by simp)
    have hks : ∀ q ∈ ks, KeyOk env q := fun q hq => h q (by simp [hq])
    simp [gatherTasks, hr, ih hks, perKeyRecs, perKeyErrs]

/-- A gather batch that returns ran every one of its tasks to a completed
outcome (`asyncio.gather` re-raises the first task exception otherwise). -/
theorem gatherTasks_keys_ok (env : TransportEnv) (p : List String) (r : ProcResult)
    (h : gatherTasks env p = Except.ok r) : ∀ k ∈ p, KeyOk env k := by
  induction p generalizing r with
  | nil => intro k hk; simp at hk
  | cons k ks ih =>
    intro q hq
    cases hpk : process_postal k (env k) with
    | error e => simp [gatherTasks, hpk] at h
    | ok pr =>
      cases hg : gatherTasks env ks with
      | error e => simp [gatherTasks, hpk, hg] at h
      | ok rest =>
        rcases List.mem_cons.mp hq with rfl | hq'
        · exact ⟨pr, hpk⟩
        · exact ih rest hg q hq'

/-- Invariant of the main loop when every involved task completes: the
loop returns, its leftover pending keys are completable, and the flushed
dataframe plus the pending contributions equal the prior state's value
plus the submitted keys' contributions, in submission order — no flush
boundary loses or duplicates a record or an entry. -/
theorem downloadAux_ok (env : TransportEnv) (ks : List String) :
    ∀ (i : Nat) (st : DLState),
      (∀ k ∈ st.pending, KeyOk env k) → (∀ k ∈ ks, KeyOk env k) →
      ∃ st', downloadAux env i ks st = Except.ok st' ∧
        (∀ k ∈ st'.pending, KeyOk env k) ∧
        st'.df ++ st'.pending.flatMap (perKeyRecs env) =
          st.df ++ st.pending.flatMap (perKeyRecs env) ++ ks.flatMap (perKeyRecs env) ∧
        st'.errs ++ st'.pending.flatMap (perKeyErrs env) =
          st.errs ++ st.pending.flatMap (perKeyErrs env) ++ ks.flatMap (perKeyErrs env) := by
  induction ks with
  | nil =>
    intro i st hp _
    exact ⟨st, rfl, hp, by simp, by simp⟩
  | cons k ks ih =>
    intro i st hp hk
    have hkk : KeyOk env k := hk k (by simp)
    have hks : ∀ q ∈ ks, KeyOk env q := fun q hq => hk q (by simp [hq])
    have hpend : ∀ q ∈ st.pending ++ [k], KeyOk env q := by
      intro q hq
      rcases List.mem_append.mp hq with hl | hr
      · exact hp q hl
      · simp at hr; subst hr; exact hkk
    by_cases hflush : i % 1000 = 0 ∧ 0 < i
    · have hg := gatherTasks_ok env (st.pending ++ [k]) hpend
      obtain ⟨st', hst', hp', hdf, herr⟩ := ih (i + 1)
        { pending := [],
          df := st.df ++ (st.pending ++ [k]).flatMap (perKeyRecs env),
          errs := st.errs ++ (st.pending ++ [k]).flatMap (perKeyErrs env) }
        (by simp) hks
      have hstep : downloadAux env i (k :: ks) st =
          downloadAux env (i + 1) ks
            { pending := [],
              df := st.df ++ (st.pending ++ [k]).flatMap (perKeyRecs env),
              errs := st.errs ++ (st.pending ++ [k]).flatMap (perKeyErrs env) } := by
        simp only [downloadAux, if_pos hflush, hg]
      refine ⟨st', ?_, hp', ?_, ?_⟩
      · rw [hstep]; exact hst'
      · rw [hdf]; simp [List.flatMap_append, List.append_assoc]
      · rw [herr]; simp [List.flatMap_append, List.append_assoc]
    · obtain ⟨st', hst', hp', hdf, herr⟩ := ih (i + 1)
        { pending := st.pending ++ [k], df := st.df, errs := st.errs } hpend hks
      have hstep : downloadAux env i (k :: ks) st =
          downloadAux env (i + 1) ks
            { pending := st.pending ++ [k], df := st.df, errs := st.errs } := by
        simp only [downloadAux, if_neg hflush]
      refine ⟨st', ?_, hp', ?_, ?_⟩
      · rw [hstep]; exact hst'
      · rw [hdf]; simp [List.flatMap_append, List.append_assoc]
      · rw [herr]; simp [List.flatMap_append, List.append_assoc]

/-- A main loop that returns ran every submitted key's task to a
completed outcome, except possibly those still pending in its final
state. -/
theorem downloadAux_keys_ok (env : TransportEnv) (ks : List String) :
    ∀ (i : Nat) (st st' : DLState), downloadAux env i ks st = Except.ok st' →
      ∀ k, k ∈ st.pending ∨ k ∈ ks → KeyOk env k ∨ k ∈ st'.pending := by
  induction ks with
  | nil =>
    intro i st st' h k hk
    have hss : st = st' := by simpa [downloadAux] using h
    rcases hk with h1 | h2
    · exact Or.inr (hss ▸ h1)
    · simp at h2
  | cons k0 ks ih =>
    intro i st st' h k hk
    by_cases hflush : i % 1000 = 0 ∧ 0 < i
    · cases hg : gatherTasks env (st.pending ++ [k0]) with
      | error e => simp [downloadAux, hflush, hg] at h
      | ok r =>
        simp only [downloadAux, if_pos hflush, hg] at h
        have hbatch := gatherTasks_keys_ok env (st.pending ++ [k0]) r hg
        rcases hk with h1 | h2
        · exact Or.inl (hbatch k (List.mem_append.mpr (Or.inl h1)))
        · rcases List.mem_cons.mp h2 with rfl | h3
          · exact Or.inl (hbatch k (List.mem_append.mpr (Or.inr (by simp))))
          · exact ih (i + 1) _ st' h k (Or.inr h3)
    · simp only [downloadAux, if_neg hflush] at h
      rcases hk with h1 | h2
      · exact ih (i + 1) _ st' h k (Or.inl (by simp [h1]))
      · rcases List.mem_cons.mp h2 with rfl | h3
        · exact ih (i + 1) _ st' h k (Or.inl (by simp))
        · exact ih (i + 1) _ st' h k (Or.inr h3)

/-- A run of `download_data` that returns ran every key's task to a
completed outcome, and its dataframe and error log are exactly the
per-key contributions concatenated in submission order. -/
theorem download_data_ok_elim (env : TransportEnv) (keys : List String)
    (df : List BuildingRecord) (errs : List ErrorEntry)
    (h : download_data env keys = Except.ok (df, errs)) :
    (∀ k ∈ keys, KeyOk env k) ∧
    df = keys.flatMap (perKeyRecs env) ∧ errs = keys.flatMap (perKeyErrs env) := by
  cases hda : downloadAux env 0 keys ⟨[], [], []⟩ with
  | error e => simp [download_data, hda] at h
  | ok st =>
    by_cases hpe : st.pending.isEmpty
    · have hpnil : st.pending = [] := List.isEmpty_iff.mp hpe
      have hall : ∀ k ∈ keys, KeyOk env k := by
        intro k hk
        rcases downloadAux_keys_ok env keys 0 ⟨[], [], []⟩ st hda k (Or.inr hk) with hok | hmem
        · exact hok
        · rw [hpnil] at hmem; simp at hmem
      obtain ⟨st2, hst2, -, hdf2, herr2⟩ := downloadAux_ok env keys 0 ⟨[], [], []⟩ (by simp) hall
      rw [hda] at hst2
      have hss : st = st2 := by simpa using hst2
      subst hss
      rw [hpnil] at hdf2 herr2
      simp only [download_data, hda, if_pos hpe] at h
      simp at hdf2 herr2
      have hdf : df = st.df := by simpa using (congrArg Prod.fst (Except.ok.inj h)).symm
      have herr : errs = st.errs := by simpa using (congrArg Prod.snd (Except.ok.inj h)).symm
      exact ⟨hall, by rw [hdf, hdf2], by rw [herr, herr2]⟩
    · cases hg : gatherTasks env st.pending with
      | error e => simp [download_data, hda, hpe, hg] at h
      | ok r =>
        have hpok := gatherTasks_keys_ok env st.pending r hg
        have hall : ∀ k ∈ keys, KeyOk env k := by
          intro k hk
          rcases downloadAux_keys_ok env keys 0 ⟨[], [], []⟩ st hda k (Or.inr hk) with hok | hmem
          · exact hok
          · exact hpok k hmem
        obtain ⟨st2, hst2, hp2, hdf2, herr2⟩ := downloadAux_ok env keys 0 ⟨[], [], []⟩ (by simp) hall
        rw [hda] at hst2
        have hss : st = st2 := by simpa using hst2
        subst hss
        simp at hdf2 herr2
        have hgr := gatherTasks_ok env st.pending hpok
        rw [hg] at hgr
        have hrr : r = { records := st.pending.flatMap (perKeyRecs env),
                         errors := st.pending.flatMap (perKeyErrs env) } := by
          simpa using hgr
        simp only [download_data, hda, if_neg hpe, hg] at h
        have hdf : df = st.df ++ r.records := by simpa using (congrArg Prod.fst (Except.ok.inj h)).symm
        have herr : errs = st.errs ++ r.errors := by simpa using (congrArg Prod.snd (Except.ok.inj h)).symm
        refine ⟨hall, ?_, ?_⟩
        · rw [hdf, hrr, ← hdf2]
        · rw [herr, hrr, ← herr2]

/-- C4: no record is lost at flush boundaries — whenever a run returns,
the final dataframe's length equals the sum over all submitted keys of
that key's independently computed result-set size, whatever batches the
per-1000-key flushing produced. -/
theorem flush_preserves_records (env : TransportEnv) (keys : List String)
    (df : List BuildingRecord) (errs : List ErrorEntry)
    (h : download_data env keys = Except.ok (df, errs)) :
    df.length = (keys.map (fun k => (perKeyRecs env k).length)).sum := by
  obtain ⟨-, hdf, -⟩ := download_data_ok_elim env keys df errs h
  rw [hdf, List.length_flatMap]
  rfl

/-- Fully successful concrete transport: every key's probe finds one page
with one item. -/
def envGood : TransportEnv := fun _ =>
  { initial := fun _ => HttpOutcome.response 200 (Except.ok ⟨some 1, some 1, some [itemA]⟩)
    page := fun _ => HttpOutcome.response 200 (Except.ok ⟨some 1, some 1, some [itemA]⟩) }

/-- C4 witness: a concrete two-key run returns two records, matching the
independently computed per-key sizes 1 + 1. -/
theorem flush_preserves_records_witness :
    ([mkRecord itemA, mkRecord itemA] : List BuildingRecord).length =
      ((["100000", "200000"] : List String).map
        (fun k => (perKeyRecs envGood k).length)).sum :=
  flush_preserves_records envGood ["100000", "200000"] [mkRecord itemA, mkRecord itemA] []
    (by rfl)

/-- A nonempty gather batch whose every task raises `e` raises `e`. -/
theorem gatherTasks_fail (env : TransportEnv) (e : String) (p : List String)
    (hne : p ≠ []) (h : ∀ q ∈ p, process_postal q (env q) = Except.error e) :
    gatherTasks env p = Except.error e := by
  cases p with
  | nil => exact absurd rfl hne
  | cons k ks => simp [gatherTasks, h k (by simp)]

/-- When every submitted task raises `e`, the main loop either raises `e`
at some flush or returns with all keys still pending. -/
theorem downloadAux_fail (env : TransportEnv) (e : String) (ks : List String) :
    ∀ (i : Nat) (st : DLState),
      (∀ q ∈ st.pending ++ ks, process_postal q (env q) = Except.error e) →
      downloadAux env i ks st = Except.error e ∨
        downloadAux env i ks st = Except.ok ⟨st.pending ++ ks, st.df, st.errs⟩ := by
  induction ks with
  | nil => intro i st _; right; simp [downloadAux]
  | cons k ks ih =>
    intro i st h
    by_cases hflush : i % 1000 = 0 ∧ 0 < i
    · left
      have hg : gatherTasks env (st.pending ++ [k]) = Except.error e := by
        apply gatherTasks_fail env e _ (by simp)
        intro q hq
        apply h q
        rcases List.mem_append.mp hq with h1 | h2
        · exact List.mem_append.mpr (Or.inl h1)
        · simp at h2; subst h2; simp
      simp only [downloadAux, if_pos hflush, hg]
    · have hstep : downloadAux env i (k :: ks) st =
          downloadAux env (i + 1) ks
            { pending := st.pending ++ [k], df := st.df, errs := st.errs } := by
        simp only [downloadAux, if_neg hflush]
      rw [hstep]
      have h' : ∀ q ∈ (st.pending ++ [k]) ++ ks, process_postal q (env q) = Except.error e := by
        intro q hq
        apply h q
        simpa [List.append_assoc] using hq
      rcases ih (i + 1) ⟨st.pending ++ [k], st.df, st.errs⟩ h' with hl | hr
      · exact Or.inl hl
      · right; rw [hr]; simp

/-- A run over a nonempty key list in which every key's task raises `e`
aborts with `e` instead of completing. -/
theorem download_data_fail (env : TransportEnv) (e : String) (keys : List String)
    (hne : keys ≠ []) (h : ∀ q ∈ keys, process_postal q (env q) = Except.error e) :
    download_data env keys = Except.error e := by
  rcases downloadAux_fail env e keys 0 ⟨[], [], []⟩ (by simpa using h) with hda | hda
  · simp [download_data, hda]
  · have hie : (([] ++ keys : List String)).isEmpty = false := by
      cases keys with
      | nil => exact absurd rfl hne
      | cons a l => rfl
    have hg : gatherTasks env ([] ++ keys) = Except.error e := by
      apply gatherTasks_fail env e _ (by simpa using hne)
      simpa using h
    simp only [download_data, hda, hie, Bool.false_eq_true, if_false, hg]

/-- Transport on which every key's page 1 request raises a non-timeout
exception after a successful initial probe reporting one page. -/
def envPageRaise : TransportEnv := fun _ =>
  { initial := fun _ => HttpOutcome.response 200 (Except.ok ⟨some 1, some 1, some []⟩)
    page := fun _ => HttpOutcome.getError "ClientConnectionError" }

/-- C2 counterexample: over the real key space, a transport whose page
requests raise a non-timeout exception makes `download_data` abort with
that exception instead of completing with an output table — the claim
that the run survives every transport behaviour fails. -/
theorem download_aborts_on_page_error :
    download_data envPageRaise postal_codes = Except.error "ClientConnectionError" := by
  apply download_data_fail
  · have hlen : postal_codes.length = 820000 := by simp [postal_codes]
    intro hnil
    rw [hnil] at hlen
    simp at hlen
  · intro q _
    rfl

/-- A body returned by the retry loop came from some attempt that
answered 200 with that parsed body. -/
theorem fetchAux_result_some (pc : String) (start : Nat → HttpOutcome) (retries : Nat) :
    ∀ (rem : Nat) (body : SearchResponse),
      (fetchAux pc start retries rem).result = some body →
      ∃ a, start a = HttpOutcome.response 200 (Except.ok body) := by
  intro rem
  induction rem with
  | zero => intro body h; simp [fetchAux] at h
  | succ r ih =>
    intro body h
    cases ho : start (retries - (r + 1)) with
    | timeout =>
      by_cases hlt : retries - (r + 1) < retries - 1
      · simp only [fetchAux, ho, if_pos hlt] at h
        exact ih body h
      · simp [fetchAux, ho, hlt] at h
    | getError m => simp [fetchAux, ho] at h
    | response s payload =>
      by_cases hs : s = 200
      · subst hs
        cases payload with
        | ok b =>
          refine ⟨retries - (r + 1), ?_⟩
          simp only [fetchAux, ho] at h
          simp at h
          rw [ho, h]
        | error m => simp [fetchAux, ho] at h
      · simp [fetchAux, ho, hs] at h

/-- Initial-probe shape the aggregation code relies on: any parsed 200
body reporting a positive found-count carries a `totalNumPages` field
(otherwise `result['totalNumPages']` raises `KeyError`). -/
def InitSafe (t : Transport) : Prop :=
  ∀ a body, t.initial a = HttpOutcome.response 200 (Except.ok body) →
    0 < body.found.getD 0 → body.totalNumPages.isSome = true

/-- Environment under which no task can raise: initial bodies are
well-shaped and every page outcome is one the page loop survives. -/
def EnvTame (env : TransportEnv) : Prop :=
  ∀ k, InitSafe (env k) ∧ ∀ p, pageSafe ((env k).page p) = true

/-- Under a well-shaped initial probe and survivable page outcomes, a
key's task always completes instead of raising. -/
theorem process_ok_of_tame (pc : String) (t : Transport)
    (hinit : InitSafe t) (hpages : ∀ p, pageSafe (t.page p) = true) :
    ∃ r, process_postal pc t = Except.ok r := by
  cases hres : (fetch_postal pc t.initial 3).result with
  | none =>
    exact ⟨{ records := [], errors := (fetch_postal pc t.initial 3).errors },
      by simp [process_postal, hres]⟩
  | some body =>
    by_cases hf : 0 < body.found.getD 0
    · obtain ⟨a, ha⟩ := fetchAux_result_some pc t.initial 3 3 body hres
      have htnp : body.totalNumPages.isSome = true := hinit a body ha hf
      obtain ⟨tnp, htnp'⟩ := Option.isSome_iff_exists.mp htnp
      exact ⟨{ records := (pageList tnp).flatMap (pageRecs t),
               errors := (fetch_postal pc t.initial 3).errors ++
                 ((pageList tnp).filter (fun p => isTimeout (t.page p))).map
                   (fun p => ⟨pc, "Page " ++ toString p ++ " timeout"⟩) },
        by simp [process_postal, hres, hf, htnp',
          fetchPages_safe pc t (pageList tnp) (fun p _ => hpages p)]⟩
    · exact ⟨{ records := [], errors := (fetch_postal pc t.initial 3).errors },
        by simp [process_postal, hres, hf]⟩

/-- C2 (amended): for every transport behaviour in which page requests
resolve only by timeout, non-200 status, or parseable 200 response, and
initial bodies with a positive found-count carry `totalNumPages`, the
run completes normally, its table is the concatenation of the per-key
result sets, and its error log is the concatenation of the per-key
failure entries — every permanent failure is recorded and none aborts
the run.  (Without those provisos the run can abort, see the
counterexample.) -/
theorem download_completes_of_tame (env : TransportEnv) (keys : List String)
    (h : EnvTame env) :
    download_data env keys =
      Except.ok (keys.flatMap (perKeyRecs env), keys.flatMap (perKeyErrs env)) := by
  have hall : ∀ k ∈ keys, KeyOk env k :=
    fun k _ => process_ok_of_tame k (env k) (h k).1 (h k).2
  obtain ⟨st, hst, hp, hdf, herr⟩ := downloadAux_ok env keys 0 ⟨[], [], []⟩ (by simp) hall
  simp at hdf herr
  by_cases hpe : st.pending.isEmpty
  · have hpnil : st.pending = [] := List.isEmpty_iff.mp hpe
    rw [hpnil] at hdf herr
    simp at hdf herr
    simp only [download_data, hst, if_pos hpe]
    rw [hdf, herr]
  · simp only [download_data, hst, if_neg hpe, gatherTasks_ok env st.pending hp]
    rw [← hdf, ← herr]

/-- C2 (amended) witness: a concrete tame one-key run completes with its
single record and an empty error log. -/
theorem download_completes_of_tame_witness :
    download_data envGood ["018956"] = Except.ok ([mkRecord itemA], []) := by
  have htame : EnvTame envGood := by
    intro k
    constructor
    · intro a body hab hf
      have hb : body = ⟨some 1, some 1, some [itemA]⟩ := by
        have := hab
        simp only [envGood, HttpOutcome.response.injEq, Except.ok.injEq] at this
        exact this.2.symm
      rw [hb]
      rfl
    · intro p
      rfl
  have h := download_completes_of_tame envGood ["018956"] htame
  simpa using h

/-- Modelled from the spec (§3, §6): the canonical BuildingRecord with
the spec's column names for the output table. -/
structure SpecBuildingRecord where
  block_number : String
  street : String
  postal_code : String
  name : String
  latitude : String
  longitude : String
deriving DecidableEq

/-- Modelled from the spec (§6): the field mapping raw → BuildingRecord,
BLK_NO→block_number, ROAD_NAME→street, POSTAL→postal_code,
BUILDING→name, LATITUDE→latitude, LONGITUDE→longitude, each possibly
absent and then mapped to the empty string. -/
def specFieldMap (item : RawItem) : SpecBuildingRecord :=
  { block_number := item.BLK_NO.getD ""
    street := item.ROAD_NAME.getD ""
    postal_code := item.POSTAL.getD ""
    name := item.BUILDING.getD ""
    latitude := item.LATITUDE.getD ""
    longitude := item.LONGITUDE.getD "" }

/-- Column-for-column correspondence between the code's output table
(columns blk_no, street, postal_code, name, lat, lon) and the spec's
(block_number, street, postal_code, name, latitude, longitude). -/
def toSpecRecord (r : BuildingRecord) : SpecBuildingRecord :=
  { block_number := r.blk_no, street := r.street, postal_code := r.postal_code,
    name := r.name, latitude := r.lat, longitude := r.lon }

/-- Every record list the page loop returns is the image of a list of raw
items under the code's field mapping. -/
theorem fetchPages_records_mapped (pc : String) (t : Transport) :
    ∀ (ps : List Nat) (rs : List BuildingRecord) (es : List ErrorEntry),
      fetchPages pc t ps = Except.ok (rs, es) →
      ∃ items : List RawItem, rs = items.map mkRecord := by
  intro ps
  induction ps with
  | nil =>
    intro rs es h
    simp only [fetchPages] at h
    cases h
    exact ⟨[], rfl⟩
  | cons p ps ih =>
    intro rs es h
    cases hpo : t.page p with
    | timeout =>
      cases hrec : fetchPages pc t ps with
      | error e => simp [fetchPages, hpo, hrec] at h
      | ok pair =>
        obtain ⟨rs2, es2⟩ := pair
        simp only [fetchPages, hpo, hrec] at h
        have h1 : rs2 = rs := congrArg Prod.fst (Except.ok.inj h)
        rw [← h1]
        exact ih rs2 es2 hrec
    | getError m => simp [fetchPages, hpo] at h
    | response s payload =>
      by_cases hs : s = 200
      · subst hs
        cases payload with
        | error m => simp [fetchPages, hpo] at h
        | ok data =>
          cases hrec : fetchPages pc t ps with
          | error e => simp [fetchPages, hpo, hrec] at h
          | ok pair =>
            obtain ⟨rs2, es2⟩ := pair
            simp only [fetchPages, hpo, hrec, if_pos rfl] at h
            have h1 : (data.results.getD []).map mkRecord ++ rs2 = rs :=
              congrArg Prod.fst (Except.ok.inj h)
            obtain ⟨items2, hitems2⟩ := ih rs2 es2 hrec
            exact ⟨data.results.getD [] ++ items2, by rw [← h1, hitems2]; simp⟩
      · simp only [fetchPages, hpo, if_neg hs] at h
        exact ih rs es h

/-- Every record list a completed key returns is the image of a list of
raw items under the code's field mapping. -/
theorem process_records_mapped (pc : String) (t : Transport) (r : ProcResult)
    (h : process_postal pc t = Except.ok r) :
    ∃ items : List RawItem, r.records = items.map mkRecord := by
  cases hres : (fetch_postal pc t.initial 3).result with
  | none =>
    simp only [process_postal, hres] at h
    cases h
    exact ⟨[], rfl⟩
  | some body =>
    by_cases hf : 0 < body.found.getD 0
    · cases htnp : body.totalNumPages with
      | none => simp [process_postal, hres, hf, htnp] at h
      | some tnp =>
        cases hrec : fetchPages pc t (pageList tnp) with
        | error e => simp [process_postal, hres, hf, htnp, hrec] at h
        | ok pair =>
          obtain ⟨rs, es⟩ := pair
          simp only [process_postal, hres, if_pos hf, htnp, hrec] at h
          cases h
          exact fetchPages_records_mapped pc t (pageList tnp) rs es hrec
    · simp only [process_postal, hres, if_neg hf] at h
      cases h
      exact ⟨[], rfl⟩

/-- C6: the output table's rows carry exactly the six columns, which
correspond one-for-one to the spec's block_number, street, postal_code,
name, latitude, longitude; the code's field mapping agrees field-wise
with the spec's mapping (absent raw fields becoming the empty string);
and every row a key contributes arises from a raw item through that
mapping. -/
theorem field_mapping_refines_spec :
    (∀ item : RawItem, toSpecRecord (mkRecord item) = specFieldMap item) ∧
    (∀ (pc : String) (t : Transport) (r : ProcResult), process_postal pc t = Except.ok r →
      ∃ items : List RawItem, r.records = items.map mkRecord ∧
        r.records.map toSpecRecord = items.map specFieldMap) := by
  constructor
  · intro item
    rfl
  · intro pc t r h
    obtain ⟨items, hitems⟩ := process_records_mapped pc t r h
    refine ⟨items, hitems, ?_⟩
    rw [hitems, List.map_map]
    rfl

/-- C6 witness: the spec scenario — a key whose transport returns two raw
items on one page yields exactly those two rows, mapped field-wise. -/
theorem field_mapping_refines_spec_witness :
    ∃ items : List RawItem,
      ([mkRecord itemA, mkRecord ⟨none, none, none, none, none, none⟩] : List BuildingRecord) =
        items.map mkRecord ∧
      ([mkRecord itemA, mkRecord ⟨none, none, none, none, none, none⟩] : List BuildingRecord).map
          toSpecRecord =
        items.map specFieldMap := by
  have h := field_mapping_refines_spec.2 "118411"
    { initial := fun _ =>
        HttpOutcome.response 200
          (Except.ok ⟨some 2, some 1, some [itemA, ⟨none, none, none, none, none, none⟩]⟩)
      page := fun _ =>
        HttpOutcome.response 200
          (Except.ok ⟨some 2, some 1, some [itemA, ⟨none, none, none, none, none, none⟩]⟩) }
    { records := [mkRecord itemA, mkRecord ⟨none, none, none, none, none, none⟩], errors := [] }
    (by rfl)
  simpa using h

/-- Decimal digit characters are distinct. -/
theorem digitChar_inj_lt10 :
    ∀ a < 10, ∀ b < 10, Nat.digitChar a = Nat.digitChar b → a = b := by decide

/-- Zero-padded rendering is injective below 10^6. -/
theorem pad6_inj {m n : Nat} (hm : m < 1000000) (hn : n < 1000000)
    (h : pad6 m = pad6 n) : m = n := by
  have hl : [Nat.digitChar (m / 100000 % 10), Nat.digitChar (m / 10000 % 10),
      Nat.digitChar (m / 1000 % 10), Nat.digitChar (m / 100 % 10),
      Nat.digitChar (m / 10 % 10), Nat.digitChar (m % 10)] =
      [Nat.digitChar (n / 100000 % 10), Nat.digitChar (n / 10000 % 10),
      Nat.digitChar (n / 1000 % 10), Nat.digitChar (n / 100 % 10),
      Nat.digitChar (n / 10 % 10), Nat.digitChar (n % 10)] := congrArg String.data h
  simp only [List.cons.injEq, and_true] at hl
  obtain ⟨h5, h4, h3, h2, h1, h0⟩ := hl
  have d5 := digitChar_inj_lt10 _ (Nat.mod_lt _ (by norm_num)) _ (Nat.mod_lt _ (by norm_num)) h5
  have d4 := digitChar_inj_lt10 _ (Nat.mod_lt _ (by norm_num)) _ (Nat.mod_lt _ (by norm_num)) h4
  have d3 := digitChar_inj_lt10 _ (Nat.mod_lt _ (by norm_num)) _ (Nat.mod_lt _ (by norm_num)) h3
  have d2 := digitChar_inj_lt10 _ (Nat.mod_lt _ (by norm_num)) _ (Nat.mod_lt _ (by norm_num)) h2
  have d1 := digitChar_inj_lt10 _ (Nat.mod_lt _ (by norm_num)) _ (Nat.mod_lt _ (by norm_num)) h1
  have d0 := digitChar_inj_lt10 _ (Nat.mod_lt _ (by norm_num)) _ (Nat.mod_lt _ (by norm_num)) h0
  omega

/-- C7: the key space is a pure, deterministic value: exactly 820000
keys, the j-th being the 6-digit zero-padded rendering of 10000 + j (so
the keys are in ascending numeric order), every integer of
[10000, 830000) contributing exactly one key, and every key being 6
characters long. -/
theorem keyspace_generator_contract :
    postal_codes.length = 820000 ∧
    (∀ j, ∀ h : j < postal_codes.length, postal_codes.get ⟨j, h⟩ = pad6 (10000 + j)) ∧
    (∀ n, 10000 ≤ n → n < 830000 → postal_codes.count (pad6 n) = 1) ∧
    (∀ s ∈ postal_codes, s.length = 6) := by
  refine ⟨by simp [postal_codes], ?_, ?_, ?_⟩
  · intro j h
    have h2 : j < ((List.range' 10000 820000).map pad6).length := h
    show ((List.range' 10000 820000).map pad6).get ⟨j, h2⟩ = pad6 (10000 + j)
    rw [List.get_eq_getElem, List.getElem_map, List.getElem_range'_1]
  · intro n hn1 hn2
    have hnodup : postal_codes.Nodup := by
      apply List.Nodup.map_on
      · intro x hx y hy hxy
        have hxb := List.mem_range'_1.mp hx
        have hyb := List.mem_range'_1.mp hy
        exact pad6_inj (by omega) (by omega) hxy
      · exact List.nodup_range' _ _
    have hmem : pad6 n ∈ postal_codes :=
      List.mem_map_of_mem pad6 (List.mem_range'_1.mpr ⟨hn1, by omega⟩)
    exact List.count_eq_one_of_mem hnodup hmem
  · intro s hs
    obtain ⟨i, -, rfl⟩ := List.mem_map.mp hs
    rfl

/-- C7 witness: the first integer of the range contributes exactly one
key, and the first key is its padded rendering. -/
theorem keyspace_generator_contract_witness :
    postal_codes.count (pad6 10000) = 1 ∧
    postal_codes.get ⟨0, by simp [postal_codes]⟩ = pad6 (10000 + 0) :=
  ⟨keyspace_generator_contract.2.2.1 10000 (by norm_num) (by norm_num),
    keyspace_generator_contract.2.1 0 (by simp [postal_codes])⟩

/-- Filesystem whose appends fail, e.g. a full or unwritable disk. -/
def failingFS : String → Except String Unit :=
  fun _ => Except.error "OSError: No space left on device"

/-- C9 counterexample: `log_error` wraps its file write in no handler, so
on a filesystem whose append fails it raises to its caller instead of
never raising. -/
theorem log_error_raises_on_fs_failure :
    log_error failingFS "018956" "HTTP 500" =
      Except.error "OSError: No space left on device" := rfl

/-- C9 (amended): `log_error` performs exactly one append of the line
"Error with postal code <Key>: <reason>" and returns normally whenever
the filesystem append succeeds; a failing append propagates to the
caller. -/
theorem log_error_ok_of_fs_ok (fs : String → Except String Unit) (pc err : String)
    (h : ∀ s, fs s = Except.ok ()) :
    log_error fs pc err =
      fs ("Error with postal code " ++ pc ++ ": " ++ err ++ "\n") ∧
    log_error fs pc err = Except.ok () :=
  ⟨rfl, h _⟩

/-- C9 witness: under a succeeding filesystem a concrete entry is
written and the call returns normally. -/
theorem log_error_ok_of_fs_ok_witness :
    log_error (fun _ => Except.ok ()) "018956" "HTTP 500" = Except.ok () :=
  (log_error_ok_of_fs_ok (fun _ => Except.ok ()) "018956" "HTTP 500" (fun _ => rfl)).2

/-- Scheduler events of `download_data` under asyncio semantics:
`acquire` and `release` are the semaphore operations of
`async with sem:`, `taskStart i` is `asyncio.gather` beginning to run
coroutine `i` (which proceeds to its first network await, reached on
every path of `process_postal`), and `taskEnd i` is that coroutine
reaching its terminal outcome. -/
inductive SchedEv where
  | acquire : SchedEv
  | release : SchedEv
  | taskStart : Nat → SchedEv
  | taskEnd : Nat → SchedEv

/-- Modelled from the scheduling structure of `download_data`
(lines 105-126): for each of the `m` keys of a gather batch,
`async with sem:` acquires and immediately releases the semaphore around
`tasks.append(self.process_postal(...))`, which only creates the
coroutine without running it; `asyncio.gather(*tasks)` then starts every
coroutine of the batch on the single-threaded event loop, each
suspending at its first `session.get` await before any response can be
processed, so all `m` are in progress before the first completes.  In
the real run the first flush batch holds the keys of indices 0..1000
(the flush condition `i % 1000 == 0 and i > 0` first fires at i = 1000,
after that key's append), i.e. m = 1001. -/
def batchTrace (m : Nat) : List SchedEv :=
  (List.range m).flatMap (fun _ => [SchedEv.acquire, SchedEv.release]) ++
    ((List.range m).map SchedEv.taskStart ++ (List.range m).map SchedEv.taskEnd)

/-- Running count and running maximum of in-progress tasks. -/
def inFlightSteps : List SchedEv → Nat → Nat → Nat
  | [], _, mx => mx
  | SchedEv.taskStart _ :: tr, cur, mx => inFlightSteps tr (cur + 1) (Nat.max mx (cur + 1))
  | SchedEv.taskEnd _ :: tr, cur, mx => inFlightSteps tr (cur - 1) mx
  | SchedEv.acquire :: tr, cur, mx => inFlightSteps tr cur mx
  | SchedEv.release :: tr, cur, mx => inFlightSteps tr cur mx

/-- Maximum number of simultaneously in-progress tasks along a trace. -/
def maxInFlight (tr : List SchedEv) : Nat :=
  inFlightSteps tr 0 0

/-- Semaphore hold count observed at each task start. -/
def gateAtStarts : List SchedEv → Nat → List Nat
  | [], _ => []
  | SchedEv.acquire :: tr, g => gateAtStarts tr (g + 1)
  | SchedEv.release :: tr, g => gateAtStarts tr (g - 1)
  | SchedEv.taskStart _ :: tr, g => g :: gateAtStarts tr g
  | SchedEv.taskEnd _ :: tr, g => gateAtStarts tr g

/-- The creation phase's balanced acquire/release pairs do not change the
in-flight count. -/
theorem inFlightSteps_pairs (ls : List Nat) (rest : List SchedEv) (cur mx : Nat) :
    inFlightSteps (ls.flatMap (fun _ => [SchedEv.acquire, SchedEv.release]) ++ rest) cur mx =
      inFlightSteps rest cur mx := by
  induction ls with
  | nil => rfl
  | cons a ls ih => rw [List.flatMap_cons, List.append_assoc]; exact ih

/-- Each start raises the in-flight count by one, driving the running
maximum up to its final value. -/
theorem inFlightSteps_starts (ls : List Nat) (rest : List SchedEv) :
    ∀ cur mx, inFlightSteps (ls.map SchedEv.taskStart ++ rest) cur mx =
      inFlightSteps rest (cur + ls.length)
        (if ls.length = 0 then mx else Nat.max mx (cur + ls.length)) := by
  induction ls with
  | nil => intro cur mx; simp
  | cons a ls ih =>
    intro cur mx
    have step : inFlightSteps ((a :: ls).map SchedEv.taskStart ++ rest) cur mx =
        inFlightSteps (ls.map SchedEv.taskStart ++ rest) (cur + 1) (Nat.max mx (cur + 1)) := rfl
    rw [step, ih]
    simp only [List.length_cons]
    rcases Nat.eq_zero_or_pos ls.length with hz | hpos
    · rw [hz]
      norm_num
    · have hne : ¬ (ls.length = 0) := by omega
      have hne2 : ¬ (ls.length + 1 = 0) := by omega
      rw [if_neg hne, if_neg hne2]
      have e2 : Nat.max (Nat.max mx (cur + 1)) (cur + 1 + ls.length) =
          Nat.max mx (cur + (ls.length + 1)) := by
        simp only [Nat.max_def]
        split_ifs <;> omega
      have e1 : cur + 1 + ls.length = cur + (ls.length + 1) := by omega
      rw [e2, e1]

/-- Task completions never raise the running maximum. -/
theorem inFlightSteps_ends (ls : List Nat) :
    ∀ cur mx, inFlightSteps (ls.map SchedEv.taskEnd) cur mx = mx := by
  induction ls with
  | nil => intro cur mx; rfl
  | cons a ls ih => intro cur mx; exact ih (cur - 1) mx

/-- A gather batch of m created-then-started coroutines reaches m
simultaneously in-progress tasks. -/
theorem maxInFlight_batchTrace (m : Nat) (hm : 0 < m) :
    maxInFlight (batchTrace m) = m := by
  have hm' : ¬ (m = 0) := by omega
  simp only [maxInFlight, batchTrace, inFlightSteps_pairs]
  rw [inFlightSteps_starts, List.length_range, if_neg hm', inFlightSteps_ends]
  simp only [Nat.max_def]
  split_ifs <;> omega

/-- The balanced acquire/release pairs return the gate to its prior
count before any task starts. -/
theorem gateAtStarts_pairs (ls : List Nat) (rest : List SchedEv) (g : Nat) :
    gateAtStarts (ls.flatMap (fun _ => [SchedEv.acquire, SchedEv.release]) ++ rest) g =
      gateAtStarts rest g := by
  induction ls with
  | nil => rfl
  | cons a ls ih =>
    rw [List.flatMap_cons, List.append_assoc]
    show gateAtStarts (ls.flatMap (fun _ => [SchedEv.acquire, SchedEv.release]) ++ rest) (g + 1 - 1) = _
    have e : g + 1 - 1 = g := by omega
    rw [e]
    exact ih

/-- Every task start observes the current gate count unchanged. -/
theorem gateAtStarts_starts (ls : List Nat) (rest : List SchedEv) (g : Nat) :
    gateAtStarts (ls.map SchedEv.taskStart ++ rest) g =
      List.replicate ls.length g ++ gateAtStarts rest g := by
  induction ls with
  | nil => simp
  | cons a ls ih =>
    show g :: gateAtStarts (ls.map SchedEv.taskStart ++ rest) g = _
    rw [ih, List.length_cons, List.replicate_succ, List.cons_append]

/-- Task completions observe nothing. -/
theorem gateAtStarts_ends (ls : List Nat) (g : Nat) :
    gateAtStarts (ls.map SchedEv.taskEnd) g = [] := by
  induction ls with
  | nil => rfl
  | cons a ls ih => exact ih

/-- C1 (refuting): in a gather batch of the real run's first-flush size
(1001 tasks), 1001 fetch operations are simultaneously in progress —
far above the cap of 20 — and the semaphore count observed at every one
of the 1001 task starts is 0: the gate is acquired and released around
coroutine creation only, never held across an operation, so it bounds
nothing. -/
theorem gather_batch_exceeds_gate :
    20 < maxInFlight (batchTrace 1001) ∧
    maxInFlight (batchTrace 1001) = 1001 ∧
    gateAtStarts (batchTrace 1001) 0 = List.replicate 1001 0 := by
  have hmax := maxInFlight_batchTrace 1001 (by norm_num)
  refine ⟨by omega, hmax, ?_⟩
  simp only [batchTrace, gateAtStarts_pairs]
  rw [gateAtStarts_starts, gateAtStarts_ends, List.append_nil, List.length_range]
